import Mathlib

/-!
# Verification of the Local Lore heritage-aggregation core

Shallow embedding of `src/main.py` (a FastAPI service aggregating
Wikipedia / Wikimedia Commons / Wikivoyage data about heritage sites).

Modelling conventions:
* Python strings are Lean `String`s operated on through their `data`
  (`List Char`) field; Python's `str.lower`, `str.strip`, `str.split`,
  `str.replace` and the `in` substring test are embedded as executable
  functions on `List Char` (ASCII-faithful, matching the ASCII keyword
  lists and patterns the program actually uses).
* Every upstream HTTP+JSON call is modelled by an explicit
  `Except Unit _` argument: `.error ()` is a raised transport /
  JSON-decoding exception, `.ok r` a decoded response.  JSON objects with
  optional keys become structures with `Option` fields; `dict.get(k, d)`
  becomes `Option.getD`.
* Python numbers that are merely passed through (coordinates, distances,
  image dimensions) are modelled as `Int`; none of their arithmetic is
  load-bearing.
* `re.findall` over the two patterns of `extract_historical_dates` is
  embedded as a left-to-right non-overlapping scanner with `\b`
  word-boundary checks (`[A-Za-z0-9_]` word characters, faithful to the
  ASCII fragment of Python's `\w`).
* Python's `set(...)` iteration order is unspecified; it is modelled by
  `List.dedup`, and a dedicated theorem shows the final output of
  `extract_historical_dates` is the same for every iteration order.
-/

/-! ## Python string primitives -/

/-- Python's substring test `needle in haystack`, on char lists. -/
def containsSub (needle : List Char) : List Char → Bool
  | [] => needle.isEmpty
  | c :: t => needle.isPrefixOf (c :: t) || containsSub needle t

/-- Python's `str.lower()` (ASCII fragment). -/
def pyLower (s : String) : String := ⟨s.data.map Char.toLower⟩

/-- Python's `str.strip()` on char lists: drop whitespace from both ends. -/
def stripChars (l : List Char) : List Char :=
  ((l.dropWhile Char.isWhitespace).reverse.dropWhile Char.isWhitespace).reverse

/-- Python's `str.strip()`. -/
def pyStrip (s : String) : String := ⟨stripChars s.data⟩

/-- Fuelled worker for `str.split(sep)` with a non-empty separator:
splits on each non-overlapping occurrence of `sep`, left to right,
keeping empty pieces, exactly like Python.  The fuel is at least the
length of the remaining input, so the fuel-exhausted branch is
unreachable. -/
def splitSepAux (sep : List Char) : Nat → List Char → List Char → List (List Char)
  | 0, acc, l => [acc.reverse ++ l]
  | _ + 1, acc, [] => [acc.reverse]
  | fuel + 1, acc, c :: rest =>
    if sep.isPrefixOf (c :: rest) then
      acc.reverse :: splitSepAux sep fuel [] ((c :: rest).drop sep.length)
    else
      splitSepAux sep fuel (c :: acc) rest

/-- Python's `str.split(sep)` for a non-empty separator. -/
def pySplit (s sep : String) : List String :=
  (splitSepAux sep.data (s.data.length + 1) [] s.data).map fun l => ⟨l⟩

/-- Fuelled worker for `str.replace(pat, repl)` with a non-empty pattern:
replaces every non-overlapping occurrence, left to right. -/
def replaceAux (pat repl : List Char) : Nat → List Char → List Char
  | 0, l => l
  | _ + 1, [] => []
  | fuel + 1, c :: rest =>
    if pat.isPrefixOf (c :: rest) then
      repl ++ replaceAux pat repl fuel ((c :: rest).drop pat.length)
    else
      c :: replaceAux pat repl fuel rest

/-- Python's `str.replace(pat, repl)` (used only with non-empty patterns). -/
def pyReplace (s pat repl : String) : String :=
  if pat.data.isEmpty then s
  else ⟨replaceAux pat.data repl.data s.data.length s.data⟩

/-! ## TextSummarizer: `extract_heritage_facts` / `extract_cultural_info`
(src/main.py lines 333-374) -/

/-- The fixed heritage keyword list (src/main.py lines 342-346). -/
def heritage_keywords : List String :=
  ["built", "constructed", "established", "founded", "century",
   "ancient", "historical", "heritage", "monument", "temple",
   "fort", "palace", "architecture", "dynasty", "empire"]

/-- The fixed cultural keyword list (src/main.py lines 363-367). -/
def cultural_keywords : List String :=
  ["culture", "tradition", "festival", "ritual", "worship",
   "pilgrimage", "sacred", "religious", "spiritual", "art",
   "craft", "music", "dance", "cuisine", "custom"]

/-- `any(keyword in sentence.lower() for keyword in kws)`. -/
def keywordHit (kws : List String) (sentence : String) : Bool :=
  kws.any fun kw => containsSub kw.data (pyLower sentence).data

/-- Shared shape of the two sentence extractors: split on the literal
`". "`, strip each piece, keep pieces longer than 20 characters that
contain a keyword (re-appending a trailing period), truncate. -/
def extract_matching (kws : List String) (maxN : Nat) (text : String) : List String :=
  if text = "" then []
  else
    let sentences := pySplit text ". "
    let kept := sentences.filterMap fun sentence =>
      let s := pyStrip sentence
      if 20 < s.length ∧ keywordHit kws s = true then some (s ++ ".") else none
    kept.take maxN

/-- `extract_heritage_facts` (src/main.py lines 333-353): sentences with a
heritage keyword, at most 5, in source order. -/
def extract_heritage_facts (text : String) : List String :=
  extract_matching heritage_keywords 5 text

/-- `extract_cultural_info` (src/main.py lines 355-374): sentences with a
cultural keyword, at most 3, in source order. -/
def extract_cultural_info (text : String) : List String :=
  extract_matching cultural_keywords 3 text

/-! ## TextSummarizer: `extract_historical_dates` (src/main.py lines 376-406) -/

/-- A historical timeline entry: the dict `{"period": ..., "type": ...}`
built at src/main.py lines 394-404 (`type` is `"year"` or `"century"`). -/
structure TimelineEntry where
  period : String
  type : String
deriving DecidableEq

/-- Word characters for the `\b` boundary of Python's regexes
(ASCII fragment of `\w`: letters, digits, underscore). -/
def isWordChar (c : Char) : Bool := c.isAlphanum || c == '_'

/-- `\b` at the position right after a matched word character: the next
character must be a non-word character, or the input must end. -/
def tailBoundary : List Char → Bool
  | [] => true
  | c :: _ => !isWordChar c

/-- The year alternation `1[0-9]{3}|20[0-2][0-9]` on four characters. -/
def yearDigitsOk (d1 d2 d3 d4 : Char) : Bool :=
  (d1 == '1' && d2.isDigit && d3.isDigit && d4.isDigit) ||
  (d1 == '2' && d2 == '0' && (d3 == '0' || d3 == '1' || d3 == '2') && d4.isDigit)

/-- Try the pattern `\b(1[0-9]{3}|20[0-2][0-9])\b` at the head of the
input; `prevWord` says whether the character immediately before the head
is a word character (leading `\b`). -/
def yearMatch (prevWord : Bool) : List Char → Option String
  | d1 :: d2 :: d3 :: d4 :: rest =>
    if !prevWord && yearDigitsOk d1 d2 d3 d4 && tailBoundary rest then
      some ⟨[d1, d2, d3, d4]⟩
    else none
  | _ => none

/-- Left-to-right non-overlapping scan of `re.findall` for the year
pattern.  On a match the scan resumes after its four characters; the fuel
is at least the length of the input, so it never runs out. -/
def findYearsAux : Nat → Bool → List Char → List String
  | 0, _, _ => []
  | _ + 1, _, [] => []
  | fuel + 1, prevWord, c :: rest =>
    match yearMatch prevWord (c :: rest) with
    | some y => y :: findYearsAux fuel true (rest.drop 3)
    | none => findYearsAux fuel (isWordChar c) rest

/-- `re.findall(r'\b(1[0-9]{3}|20[0-2][0-9])\b', text)` (src/main.py
lines 387-388). -/
def findYears (l : List Char) : List String := findYearsAux l.length false l

/-- The `(st|nd|rd|th)` alternation, case-insensitive. -/
def suffixOk (a b : Char) : Bool :=
  (a.toLower == 's' && b.toLower == 't') || (a.toLower == 'n' && b.toLower == 'd') ||
  (a.toLower == 'r' && b.toLower == 'd') || (a.toLower == 't' && b.toLower == 'h')

/-- Case-insensitive literal match: if the input starts with the (already
lowercase) pattern, return the rest of the input. -/
def ciPrefixRest : List Char → List Char → Option (List Char)
  | [], l => some l
  | _ :: _, [] => none
  | p :: ps, c :: cs => if c.toLower == p then ciPrefixRest ps cs else none

/-- After the captured groups, match `\s+century\b` (case-insensitive)
and return the remaining input. -/
def spacesCenturyRest : List Char → Option (List Char)
  | [] => none
  | c :: rest =>
    if c.isWhitespace then
      match ciPrefixRest ['c', 'e', 'n', 't', 'u', 'r', 'y'] (rest.dropWhile Char.isWhitespace) with
      | some rest2 => if tailBoundary rest2 then some rest2 else none
      | none => none
    else none

/-- Try the suffix-and-tail of the century pattern after the digit group:
two suffix characters, then `\s+century\b`.  Returns the captured suffix
and the remaining input. -/
def centurySuffixRest : List Char → Option (String × List Char)
  | a :: b :: rest =>
    if suffixOk a b then
      match spacesCenturyRest rest with
      | some rest2 => some (⟨[a, b]⟩, rest2)
      | none => none
    else none
  | _ => none

/-- Try `\b(\d{1,2})(st|nd|rd|th)\s+century\b` (IGNORECASE) at the head
of the input; the greedy `\d{1,2}` first tries two digits, then one.
Returns the two captured groups and the remaining input. -/
def centuryMatch (prevWord : Bool) : List Char → Option ((String × String) × List Char)
  | [] => none
  | d1 :: rest1 =>
    if prevWord || !d1.isDigit then none
    else
      match rest1 with
      | d2 :: rest2 =>
        if d2.isDigit then
          match centurySuffixRest rest2 with
          | some (suf, rest3) => some ((⟨[d1, d2]⟩, suf), rest3)
          | none =>
            match centurySuffixRest rest1 with
            | some (suf, rest3) => some ((⟨[d1]⟩, suf), rest3)
            | none => none
        else
          match centurySuffixRest rest1 with
          | some (suf, rest3) => some ((⟨[d1]⟩, suf), rest3)
          | none => none
      | [] => none

/-- Left-to-right non-overlapping scan for the century pattern; on a
match the scan resumes after the whole match (whose last character,
`y`/`Y`, is a word character). -/
def findCenturiesAux : Nat → Bool → List Char → List (String × String)
  | 0, _, _ => []
  | _ + 1, _, [] => []
  | fuel + 1, prevWord, c :: rest =>
    match centuryMatch prevWord (c :: rest) with
    | some (grp, rest2) => grp :: findCenturiesAux fuel true rest2
    | none => findCenturiesAux fuel (isWordChar c) rest

/-- `re.findall(r'\b(\d{1,2})(st|nd|rd|th)\s+century\b', text,
re.IGNORECASE)` (src/main.py lines 391-392), as (digits, suffix) group
pairs. -/
def findCenturies (l : List Char) : List (String × String) := findCenturiesAux l.length false l

/-- The year entry built at src/main.py lines 394-398. -/
def mkYearEntry (y : String) : TimelineEntry := ⟨y, "year"⟩

/-- The century entry built at src/main.py lines 400-404:
`f"{century}{suffix} century"`. -/
def mkCenturyEntry (p : String × String) : TimelineEntry := ⟨p.1 ++ p.2 ++ " century", "century"⟩

/-- Strict code-point lexicographic order on char lists: Python's `<` on
strings. -/
def strLt : List Char → List Char → Bool
  | [], [] => false
  | [], _ :: _ => true
  | _ :: _, [] => false
  | a :: as, b :: bs =>
    if a.toNat < b.toNat then true
    else if b.toNat < a.toNat then false
    else strLt as bs

/-- The comparison `sorted(timeline, key=lambda x: x["period"])` sorts
by. -/
def periodLt (a b : TimelineEntry) : Bool := strLt a.period.data b.period.data

/-- Stable insertion of one element into a sorted list: the new element
goes before the first element not strictly below it. -/
def insertEntry (x : TimelineEntry) : List TimelineEntry → List TimelineEntry
  | [] => [x]
  | y :: ys => if periodLt y x then y :: insertEntry x ys else x :: y :: ys

/-- Python's `sorted(..., key=lambda x: x["period"])`: a stable ascending
sort by the period string, modelled as stable insertion sort (any stable
ascending sort computes the same list). -/
def sortEntries : List TimelineEntry → List TimelineEntry
  | [] => []
  | x :: xs => insertEntry x (sortEntries xs)

/-- The tail of `extract_historical_dates` once the two match lists are
known, parametrised by the order in which the deduplicated years are
emitted (src/main.py lines 394-406). -/
def timelineFrom (ys : List String) (cents : List (String × String)) : List TimelineEntry :=
  (sortEntries (ys.map mkYearEntry ++ cents.map mkCenturyEntry)).take 5

/-- `extract_historical_dates` (src/main.py lines 376-406): year and
century matches, years deduplicated through a set (modelled by
`List.dedup`; order-independence is proved below), sorted
lexicographically by period, first 5. -/
def extract_historical_dates (text : String) : List TimelineEntry :=
  if text = "" then []
  else timelineFrom (findYears text.data).dedup (findCenturies text.data)

/-- Numeric value of a digit string (used only to state the year-range
property). -/
def yearVal (s : String) : Nat := s.data.foldl (fun n c => 10 * n + (c.toNat - 48)) 0

/-! ## Slug conversions (src/main.py lines 210, 235, 313) -/

/-- `result["title"].replace(" ", "_")` — the location id built by
`search_locations` (line 210) and `get_nearby_heritage` (line 313). -/
def toSlug (title : String) : String := pyReplace title " " "_"

/-- `location_id.replace("_", " ")` — the display title recovered by
`get_heritage_content` (line 235). -/
def fromSlug (location_id : String) : String := pyReplace location_id "_" " "

/-! ## Language resolution (src/main.py lines 38-44, 53, 79, 162, 302) -/

/-- The `LANGUAGE_CODES` dict (src/main.py lines 38-44), as an
association list. -/
def LANGUAGE_CODES : List (String × String) :=
  [("en", "en"), ("hi", "hi"), ("ta", "ta"), ("te", "te"), ("bn", "bn")]

/-- Python's `dict.get(key, default)` on an association list. -/
def dictGet (d : List (String × String)) (key dflt : String) : String :=
  match d with
  | [] => dflt
  | (k, v) :: rest => if k = key then v else dictGet rest key dflt

/-- The supported language codes (the keys of `LANGUAGE_CODES`). -/
def supported_langs : List String := ["en", "hi", "ta", "te", "bn"]

/-- `LANGUAGE_CODES.get(lang, "en")`, as written at src/main.py
lines 53, 79, 162 and 302. -/
def resolveLang (lang : String) : String := dictGet LANGUAGE_CODES lang "en"

/-- The Wikipedia API host selected by `search_wikipedia`
(src/main.py lines 53-54). -/
def search_wikipedia_api_url (lang : String) : String :=
  "https://" ++ resolveLang lang ++ ".wikipedia.org/w/api.php"

/-- The Wikipedia API host selected by `get_article_content`
(src/main.py lines 79-80). -/
def article_content_api_url (lang : String) : String :=
  "https://" ++ resolveLang lang ++ ".wikipedia.org/w/api.php"

/-- The Wikivoyage API host selected by `get_wikivoyage_content`
(src/main.py lines 162-163). -/
def wikivoyage_api_url (lang : String) : String :=
  "https://" ++ resolveLang lang ++ ".wikivoyage.org/w/api.php"

/-- The Wikipedia API host selected by `get_nearby_heritage`
(src/main.py lines 302-303). -/
def nearby_api_url (lang : String) : String :=
  "https://" ++ resolveLang lang ++ ".wikipedia.org/w/api.php"

/-! ## Upstream response shapes

JSON objects are modelled as structures whose optional keys are `Option`
fields; a `pages` dict becomes the list of its values (the code only
reads `list(...values())[0]`). -/

/-- A coordinate pair (floats in the source; pure pass-through). -/
structure Coord where
  lat : Int
  lon : Int
deriving DecidableEq

/-- One entry of a page's `categories` array. -/
structure CategoryEntry where
  title : Option String
deriving DecidableEq

/-- A Wikipedia page object as read by `get_heritage_content`
(keys `extract`, `coordinates`, `categories`, `pageimage`, all
optional). -/
structure WikiPage where
  extract : Option String
  coordinates : Option (List Coord)
  categories : Option (List CategoryEntry)
  pageimage : Option String
deriving DecidableEq

/-- The empty dict `{}` that `get_article_content` returns on failure. -/
def emptyWikiPage : WikiPage := ⟨none, none, none, none⟩

/-- `data["query"]` of the article-content response. -/
structure ArticleQuery where
  pages : Option (List WikiPage)
deriving DecidableEq

/-- The decoded article-content response. -/
structure ArticleResp where
  query : Option ArticleQuery
deriving DecidableEq

/-- `get_article_content` (src/main.py lines 76-105): returns the first
page object, or `{}` when the call raised, the response had no
`query`/`pages`, or the pages dict was empty (`list(...)[0]` raising
IndexError inside the `try`). -/
def get_article_content (resp : Except Unit ArticleResp) : WikiPage :=
  match resp with
  | .error _ => emptyWikiPage
  | .ok data =>
    match data.query with
    | none => emptyWikiPage
    | some q =>
      match q.pages with
      | none => emptyWikiPage
      | some [] => emptyWikiPage
      | some (page :: _) => page

/-- A Wikivoyage page object as read by `get_heritage_content`
(keys `extract`, `pageimage`). -/
structure VoyPage where
  extract : Option String
  pageimage : Option String
deriving DecidableEq

/-- The empty dict `{}` that `get_wikivoyage_content` returns on failure. -/
def emptyVoyPage : VoyPage := ⟨none, none⟩

/-- `data["query"]` of the Wikivoyage response. -/
structure VoyQuery where
  pages : Option (List VoyPage)
deriving DecidableEq

/-- The decoded Wikivoyage response. -/
structure VoyResp where
  query : Option VoyQuery
deriving DecidableEq

/-- `get_wikivoyage_content` (src/main.py lines 159-186): same shape as
`get_article_content` against the travel-guide service. -/
def get_wikivoyage_content (resp : Except Unit VoyResp) : VoyPage :=
  match resp with
  | .error _ => emptyVoyPage
  | .ok data =>
    match data.query with
    | none => emptyVoyPage
    | some q =>
      match q.pages with
      | none => emptyVoyPage
      | some [] => emptyVoyPage
      | some (page :: _) => page

/-! ## `get_commons_images` (src/main.py lines 107-157) -/

/-- One hit of the Commons file search (`item`; only `title` is read). -/
structure CommonsHit where
  title : String
deriving DecidableEq

/-- `data["query"]` of the Commons search response. -/
structure CommonsQuery where
  search : Option (List CommonsHit)
deriving DecidableEq

/-- The decoded Commons search response. -/
structure CommonsSearchResp where
  query : Option CommonsQuery
deriving DecidableEq

/-- `imageinfo[0].get("extmetadata", {}).get("ImageDescription", {})`. -/
structure ImageDescriptionObj where
  value : Option String
deriving DecidableEq

/-- `imageinfo[0].get("extmetadata", {})`. -/
structure ExtMetadata where
  ImageDescription : Option ImageDescriptionObj
deriving DecidableEq

/-- One element of a page's `imageinfo` array. -/
structure ImgInfo where
  thumburl : Option String
  url : Option String
  thumbwidth : Option Int
  width : Option Int
  thumbheight : Option Int
  height : Option Int
  extmetadata : Option ExtMetadata
deriving DecidableEq

/-- One value of the `pages` dict of a per-file `imageinfo` query. -/
structure ImgPage where
  imageinfo : Option (List ImgInfo)
deriving DecidableEq

/-- `img_data["query"]` of a per-file `imageinfo` query. -/
structure ImgQuery where
  pages : Option (List ImgPage)
deriving DecidableEq

/-- The decoded per-file `imageinfo` response (`img_data`). -/
structure ImgResp where
  query : Option ImgQuery
deriving DecidableEq

/-- The asset record appended at src/main.py lines 143-150. -/
structure CommonsImage where
  title : String
  url : Option String
  full_url : Option String
  width : Option Int
  height : Option Int
  description : String
deriving DecidableEq

/-- The asset record built from a search hit and its resolved
`imageinfo[0]` (src/main.py lines 143-150). -/
def mkImage (item : CommonsHit) (info : ImgInfo) : CommonsImage :=
  { title := pyReplace item.title "File:" ""
    url := info.thumburl <|> info.url
    full_url := info.url
    width := info.thumbwidth <|> info.width
    height := info.thumbheight <|> info.height
    description := ((info.extmetadata.getD ⟨none⟩).ImageDescription.getD ⟨none⟩).value.getD "" }

/-- The per-hit loop of `get_commons_images` (src/main.py lines 125-150).
`detail` maps a hit title to its second-stage `imageinfo` response.
Returns `none` when an iteration raised — a failed HTTP call or JSON
decode (`.error`), or an IndexError from `list(...)[0]` /
`imageinfo[0]` on an empty array — because such an exception escapes the
loop to the outer handler.  A response without `query`/`pages` or whose
page lacks `imageinfo` merely skips that hit. -/
def buildImages (detail : String → Except Unit ImgResp) : List CommonsHit → Option (List CommonsImage)
  | [] => some []
  | item :: rest =>
    match detail item.title with
    | .error _ => none
    | .ok imgData =>
      match imgData.query with
      | none => buildImages detail rest
      | some iq =>
        match iq.pages with
        | none => buildImages detail rest
        | some [] => none
        | some (page :: _) =>
          match page.imageinfo with
          | none => buildImages detail rest
          | some [] => none
          | some (info :: _) =>
            (buildImages detail rest).map fun imgs => mkImage item info :: imgs

/-- `get_commons_images` (src/main.py lines 107-157): search the File
namespace (the request carries `srlimit = limit`, but the code itself
never truncates the hit list before the loop), resolve each hit's image
metadata, return the resolved assets truncated to `limit`
(`images[:limit]`); any exception anywhere inside the `try` yields `[]`.
The `search_term` only feeds the upstream query string
(`f"{search_term} India"`). -/
def get_commons_images (search_term : String) (limit : Nat)
    (searchRes : Except Unit CommonsSearchResp)
    (detail : String → Except Unit ImgResp) : List CommonsImage :=
  match searchRes with
  | .error _ => []
  | .ok data =>
    match data.query with
    | none => []
    | some q =>
      match q.search with
      | none => []
      | some hits =>
        match buildImages detail hits with
        | none => []
        | some images => images.take limit

/-! ## Aggregator: `get_heritage_content` (src/main.py lines 227-280) -/

/-- The `wikipedia` section of the composite record
(src/main.py lines 258-263). -/
structure WikipediaSection where
  extract : String
  coordinates : List Coord
  categories : List String
  page_image : String
deriving DecidableEq

/-- The `travel_info` section (src/main.py lines 264-267). -/
structure TravelInfo where
  extract : String
  page_image : String
deriving DecidableEq

/-- The `summary` section (src/main.py lines 269-273). -/
structure HeritageSummary where
  heritage_facts : List String
  cultural_significance : List String
  historical_timeline : List TimelineEntry
deriving DecidableEq

/-- The composite heritage record (src/main.py lines 254-274). -/
structure HeritageData where
  location_id : String
  title : String
  language : String
  wikipedia : WikipediaSection
  travel_info : TravelInfo
  images : List CommonsImage
  summary : HeritageSummary
deriving DecidableEq

/-- `get_heritage_content` (src/main.py lines 227-280).  The three
upstream fetches run concurrently through `asyncio.gather`; each is
modelled by its decoded-response argument, where `.error ()` covers both
an exception caught inside the fetch (which returns `{}`/`[]`) and one
delivered through `gather(..., return_exceptions=True)` and replaced by
`{}`/`[]` at lines 246-251 — the two roads produce the same empty value.
The media search is invoked without a caller-supplied limit, so it runs
with its default `limit = 10`.  The function is total: no input makes it
raise. -/
def get_heritage_content (location_id lang : String)
    (wikiRes : Except Unit ArticleResp)
    (commonsSearchRes : Except Unit CommonsSearchResp)
    (detail : String → Except Unit ImgResp)
    (voyRes : Except Unit VoyResp) : HeritageData :=
  let location_title := fromSlug location_id
  let wiki_content := get_article_content wikiRes
  let images := get_commons_images location_title 10 commonsSearchRes detail
  let wikivoyage_content := get_wikivoyage_content voyRes
  let wextract := wiki_content.extract.getD ""
  { location_id := location_id
    title := location_title
    language := lang
    wikipedia :=
      { extract := wextract
        coordinates := wiki_content.coordinates.getD []
        categories := (wiki_content.categories.getD []).map fun cat => cat.title.getD ""
        page_image := wiki_content.pageimage.getD "" }
    travel_info :=
      { extract := wikivoyage_content.extract.getD ""
        page_image := wikivoyage_content.pageimage.getD "" }
    images := images
    summary :=
      { heritage_facts := extract_heritage_facts wextract
        cultural_significance := extract_cultural_info wextract
        historical_timeline := extract_historical_dates wextract } }

/-! ## `get_nearby_heritage` (src/main.py lines 282-331) -/

/-- The load-bearing geosearch request parameters built at src/main.py
lines 292-300 (`gscoord` is a float-formatting detail and is omitted). -/
structure GeoRequestParams where
  gsradius : Int
  gslimit : Nat
  gsnamespace : Nat
deriving DecidableEq

/-- The request parameters: radius converted from km to meters, at most
20 hits, namespace 0 only. -/
def nearby_request_params (radius : Int) : GeoRequestParams :=
  { gsradius := radius * 1000
    gslimit := 20
    gsnamespace := 0 }

/-- One geosearch hit (`place`): `title` plus optional `dist`, `lat`,
`lon`. -/
structure GeoHit where
  title : String
  dist : Option Int
  lat : Option Int
  lon : Option Int
deriving DecidableEq

/-- `data["query"]` of the geosearch response. -/
structure GeoQuery where
  geosearch : Option (List GeoHit)
deriving DecidableEq

/-- The decoded geosearch response. -/
structure GeoResp where
  query : Option GeoQuery
deriving DecidableEq

/-- One place of the endpoint's response (src/main.py lines 312-320). -/
structure NearbyPlace where
  id : String
  title : String
  distance : Int
  coordinates : Coord
deriving DecidableEq

/-- The endpoint's response envelope (src/main.py lines 322-327). -/
structure NearbyResult where
  center : Coord
  radius_km : Int
  total : Nat
  places : List NearbyPlace
deriving DecidableEq

/-- The conversion of one upstream hit (src/main.py lines 312-320). -/
def convertPlace (place : GeoHit) : NearbyPlace :=
  { id := toSlug place.title
    title := place.title
    distance := place.dist.getD 0
    coordinates := { lat := place.lat.getD 0, lon := place.lon.getD 0 } }

/-- `get_nearby_heritage` (src/main.py lines 282-331): a raised
transport/decoding exception is caught by the handler's `except`, which
re-raises `HTTPException(503-class)` — modelled as `.error ()`; a decoded
response without `query`/`geosearch` yields an empty place list. -/
def get_nearby_heritage (lat lon radius : Int) (lang : String)
    (resp : Except Unit GeoResp) : Except Unit NearbyResult :=
  match resp with
  | .error _ => .error ()
  | .ok data =>
    let nearby_places :=
      match data.query with
      | none => []
      | some q =>
        match q.geosearch with
        | none => []
        | some hits => hits.map convertPlace
    .ok { center := { lat := lat, lon := lon }
          radius_km := radius
          total := nearby_places.length
          places := nearby_places }

/-! ## Concrete Commons scenarios (used to settle claim C3) -/

/-- A fully populated `imageinfo[0]` record. -/
def c3GoodInfo : ImgInfo :=
  { thumburl := some "https://upload.example/thumb.jpg"
    url := some "https://upload.example/full.jpg"
    thumbwidth := some 400
    width := some 1200
    thumbheight := some 300
    height := some 900
    extmetadata := some ⟨some ⟨some "A fort gate"⟩⟩ }

/-- A well-formed detail response whose page carries image metadata. -/
def c3GoodResp : ImgResp := ⟨some ⟨some [⟨some [c3GoodInfo]⟩]⟩⟩

/-- A well-formed detail response whose page has no `imageinfo` key (the
upstream way of reporting an unresolvable file): the code skips the hit. -/
def c3MissingResp : ImgResp := ⟨some ⟨some [⟨none⟩]⟩⟩

/-- A Commons search response with five raw hits. -/
def c3Search5 : CommonsSearchResp :=
  ⟨some ⟨some [⟨"File:A.jpg"⟩, ⟨"File:B.jpg"⟩, ⟨"File:C.jpg"⟩, ⟨"File:D.jpg"⟩, ⟨"File:E.jpg"⟩]⟩⟩

/-- Second-stage lookups where the calls for hits B and D raise a
transport exception. -/
def c3DetailRaises (t : String) : Except Unit ImgResp :=
  if t = "File:B.jpg" ∨ t = "File:D.jpg" then .error () else .ok c3GoodResp

/-- Second-stage lookups where the responses for hits B and D are
well-formed but carry no image metadata. -/
def c3DetailMissing (t : String) : Except Unit ImgResp :=
  if t = "File:B.jpg" ∨ t = "File:D.jpg" then .ok c3MissingResp else .ok c3GoodResp

/-- Second-stage lookups that all succeed. -/
def c3DetailAllOk (_t : String) : Except Unit ImgResp := .ok c3GoodResp

/-! ## Order lemmas for the lexicographic period sort -/

theorem strLt_irrefl : ∀ l : List Char, strLt l l = false := by
  intro l
  induction l with
  | nil => rfl
  | cons c t ih => simp [strLt, ih]

theorem strLt_trans : ∀ {a b c : List Char},
    strLt a b = true → strLt b c = true → strLt a c = true := by
  intro a
  induction a with
  | nil =>
    intro b c hab hbc
    cases b with
    | nil => simp [strLt] at hab
    | cons y bs =>
      cases c with
      | nil => simp [strLt] at hbc
      | cons z cs => rfl
  | cons x as ih =>
    intro b c hab hbc
    cases b with
    | nil => simp [strLt] at hab
    | cons y bs =>
      cases c with
      | nil => simp [strLt] at hbc
      | cons z cs =>
        simp only [strLt] at hab hbc ⊢
        split_ifs at hab hbc ⊢ with h1 h2 h3 h4 h5 h6 <;> try rfl
        all_goals first
          | omega
          | (exact ih hab hbc)
          | (exfalso; omega)

theorem strLt_connex : ∀ {a b : List Char},
    strLt a b = false → strLt b a = false → a = b := by
  intro a
  induction a with
  | nil =>
    intro b hab _
    cases b with
    | nil => rfl
    | cons y bs => simp [strLt] at hab
  | cons x as ih =>
    intro b hab hba
    cases b with
    | nil => simp [strLt] at hba
    | cons y bs =>
      simp only [strLt] at hab hba
      by_cases h1 : x.toNat < y.toNat
      · simp [h1] at hab
      · by_cases h2 : y.toNat < x.toNat
        · simp [h2] at hba
        · simp [h1, h2] at hab hba
          have h3 : x.toNat = y.toNat := by omega
          have hxy : x = y :=
            Char.eq_of_val_eq (UInt32.eq_of_val_eq (Fin.eq_of_val_eq h3))
          rw [hxy, ih hab hba]

theorem strLt_asymm {a b : List Char} (h : strLt a b = true) : strLt b a = false := by
  cases hba : strLt b a
  · rfl
  · have := strLt_trans h hba
    rw [strLt_irrefl] at this
    exact this.symm ▸ rfl

/-- The non-strict order the period sort produces: `a` is not strictly
above `b`. -/
def entryLe (a b : TimelineEntry) : Prop := strLt b.period.data a.period.data = false

theorem entryLe_trans {a b c : TimelineEntry} (h1 : entryLe a b) (h2 : entryLe b c) :
    entryLe a c := by
  unfold entryLe at h1 h2 ⊢
  by_contra hca
  have hca' : strLt c.period.data a.period.data = true := by
    cases h : strLt c.period.data a.period.data
    · exact absurd h hca
    · rfl
  cases hbc : strLt b.period.data c.period.data
  · have hcb := strLt_connex h2 hbc
    rw [← hcb] at h1
    rw [h1] at hca'
    simp at hca'
  · have := strLt_trans hbc hca'
    rw [this] at h1
    simp at h1

theorem insertEntry_perm (x : TimelineEntry) (l : List TimelineEntry) :
    (insertEntry x l).Perm (x :: l) := by
  induction l with
  | nil => exact List.Perm.refl _
  | cons y ys ih =>
    by_cases h : periodLt y x = true
    · simp only [insertEntry, h, if_true]
      exact (ih.cons y).trans (List.Perm.swap x y ys)
    · simp only [insertEntry, h, if_false]
      exact List.Perm.refl _

theorem sortEntries_perm (l : List TimelineEntry) : (sortEntries l).Perm l := by
  induction l with
  | nil => exact List.Perm.refl _
  | cons x xs ih => exact (insertEntry_perm x (sortEntries xs)).trans (ih.cons x)

theorem pairwise_insertEntry {x : TimelineEntry} {l : List TimelineEntry}
    (h : l.Pairwise entryLe) : (insertEntry x l).Pairwise entryLe := by
  induction l with
  | nil => simp [insertEntry]
  | cons y ys ih =>
    rw [List.pairwise_cons] at h
    by_cases hyx : periodLt y x = true
    · simp only [insertEntry, hyx, if_true]
      rw [List.pairwise_cons]
      refine ⟨?_, ih h.2⟩
      intro z hz
      have hz' : z = x ∨ z ∈ ys := by
        have := (insertEntry_perm x ys).mem_iff.mp hz
        simpa using this
      rcases hz' with rfl | hz'
      · exact strLt_asymm hyx
      · exact h.1 z hz'
    · have hyx' : periodLt y x = false := by
        cases h' : periodLt y x
        · rfl
        · exact absurd h' hyx
      simp only [insertEntry, hyx', Bool.false_eq_true, if_false]
      rw [List.pairwise_cons]
      refine ⟨?_, List.pairwise_cons.mpr h⟩
      intro z hz
      rcases List.mem_cons.mp hz with rfl | hz'
      · have : strLt z.period.data x.period.data = false := by
          cases hc : strLt z.period.data x.period.data
          · rfl
          · exact absurd (hc ▸ rfl : periodLt z x = true) hyx
        exact this
      · have hxy : entryLe x y := by
          unfold entryLe
          cases hc : strLt y.period.data x.period.data
          · rfl
          · exact absurd (hc ▸ rfl : periodLt y x = true) hyx
        exact entryLe_trans hxy (h.1 z hz')

theorem sortEntries_pairwise (l : List TimelineEntry) : (sortEntries l).Pairwise entryLe := by
  induction l with
  | nil => simp [sortEntries]
  | cons x xs ih => exact pairwise_insertEntry ih

/-- Two lists that are permutations of each other and both sorted by a
relation antisymmetric on the first list's members are equal. -/
theorem eq_of_perm_of_pairwise {α : Type} {r : α → α → Prop} :
    ∀ {l₁ l₂ : List α},
      (∀ a ∈ l₁, ∀ b ∈ l₁, r a b → r b a → a = b) →
      l₁.Perm l₂ → l₁.Pairwise r → l₂.Pairwise r → l₁ = l₂
  | [], l₂, _, p, _, _ => p.nil_eq
  | a :: t₁, [], _, p, _, _ => absurd (p.symm.nil_eq) (by simp)
  | a :: t₁, b :: t₂, anti, p, s₁, s₂ => by
    have hab : a = b := by
      have ha2 : a ∈ b :: t₂ := p.subset (List.mem_cons_self a t₁)
      have hb1 : b ∈ a :: t₁ := p.symm.subset (List.mem_cons_self b t₂)
      rcases List.mem_cons.mp ha2 with h | ha2'
      · exact h
      · rcases List.mem_cons.mp hb1 with h | hb1'
        · exact h.symm
        · have rba : r b a := List.rel_of_pairwise_cons s₂ ha2'
          have rab : r a b := List.rel_of_pairwise_cons s₁ hb1'
          exact anti a (List.mem_cons_self a t₁) b hb1 rab rba
    subst hab
    have p' : t₁.Perm t₂ := p.cons_inv
    have anti' : ∀ x ∈ t₁, ∀ y ∈ t₁, r x y → r y x → x = y := fun x hx y hy =>
      anti x (List.mem_cons_of_mem a hx) y (List.mem_cons_of_mem a hy)
    rw [eq_of_perm_of_pairwise anti' p' s₁.of_cons s₂.of_cons]

/-! ## Shape and range of year matches -/

theorem mem_findYearsAux : ∀ (fuel : Nat) (w : Bool) (l : List Char) (y : String),
    y ∈ findYearsAux fuel w l →
    ∃ d1 d2 d3 d4, y = ⟨[d1, d2, d3, d4]⟩ ∧ yearDigitsOk d1 d2 d3 d4 = true := by
  intro fuel
  induction fuel with
  | zero => intro w l y hy; simp [findYearsAux] at hy
  | succ n ih =>
    intro w l y hy
    cases l with
    | nil => simp [findYearsAux] at hy
    | cons c rest =>
      simp only [findYearsAux] at hy
      cases hm : yearMatch w (c :: rest) with
      | none => rw [hm] at hy; exact ih _ _ y hy
      | some y' =>
        rw [hm] at hy
        rcases List.mem_cons.mp hy with rfl | hy'
        · rcases rest with _ | ⟨d2, _ | ⟨d3, _ | ⟨d4, rest2⟩⟩⟩ <;>
            simp only [yearMatch] at hm
          · exact absurd hm (by simp)
          · exact absurd hm (by simp)
          · exact absurd hm (by simp)
          · by_cases hc : (!w && yearDigitsOk c d2 d3 d4 && tailBoundary rest2) = true
            · rw [if_pos hc] at hm
              have hok : yearDigitsOk c d2 d3 d4 = true := by
                simp only [Bool.and_eq_true] at hc
                exact hc.1.2
              exact ⟨c, d2, d3, d4, (Option.some.injEq _ _ ▸ hm).symm, hok⟩
            · rw [if_neg hc] at hm
              exact absurd hm (by simp)
        · exact ih _ _ y hy'

theorem mem_findYears_shape {l : List Char} {y : String} (hy : y ∈ findYears l) :
    ∃ d1 d2 d3 d4, y = ⟨[d1, d2, d3, d4]⟩ ∧ yearDigitsOk d1 d2 d3 d4 = true :=
  mem_findYearsAux l.length false l y hy

/-- Every string the year scanner emits has exactly four characters. -/
theorem mem_findYears_length {l : List Char} {y : String} (hy : y ∈ findYears l) :
    y.length = 4 := by
  obtain ⟨d1, d2, d3, d4, rfl, -⟩ := mem_findYears_shape hy
  rfl

theorem digit_toNat_bounds {c : Char} (h : c.isDigit = true) :
    48 ≤ c.toNat ∧ c.toNat ≤ 57 := by
  simp [Char.isDigit] at h
  exact h

/-- Every matched year denotes a number in 1000-1999 or 2000-2029. -/
theorem mem_findYears_range {l : List Char} {y : String} (hy : y ∈ findYears l) :
    (1000 ≤ yearVal y ∧ yearVal y ≤ 1999) ∨ (2000 ≤ yearVal y ∧ yearVal y ≤ 2029) := by
  obtain ⟨d1, d2, d3, d4, rfl, hok⟩ := mem_findYears_shape hy
  have hval : yearVal ⟨[d1, d2, d3, d4]⟩ =
      10 * (10 * (10 * (d1.toNat - 48) + (d2.toNat - 48)) + (d3.toNat - 48)) + (d4.toNat - 48) := by
    simp [yearVal, List.foldl]
  simp only [yearDigitsOk, Bool.or_eq_true, Bool.and_eq_true, beq_iff_eq] at hok
  rcases hok with ⟨⟨⟨h1, h2⟩, h3⟩, h4⟩ | ⟨⟨⟨h1, h2⟩, h3⟩, h4⟩
  · left
    obtain ⟨h2a, h2b⟩ := digit_toNat_bounds h2
    obtain ⟨h3a, h3b⟩ := digit_toNat_bounds h3
    obtain ⟨h4a, h4b⟩ := digit_toNat_bounds h4
    have h1' : d1.toNat = 49 := by rw [h1]; rfl
    rw [hval, h1']
    omega
  · right
    obtain ⟨h4a, h4b⟩ := digit_toNat_bounds h4
    have h1' : d1.toNat = 50 := by rw [h1]; rfl
    have h2' : d2.toNat = 48 := by rw [h2]; rfl
    have h3' : d3.toNat = 48 ∨ d3.toNat = 49 ∨ d3.toNat = 50 := by
      rcases h3 with (h | h) | h <;> subst h
      · exact Or.inl rfl
      · exact Or.inr (Or.inl rfl)
      · exact Or.inr (Or.inr rfl)
    rw [hval, h1', h2']
    omega

/-! ## Counting helpers -/

theorem count_map_eq_countP {α β : Type} [DecidableEq α] [DecidableEq β]
    (f : α → β) (l : List α) (b : β) :
    (l.map f).count b = l.countP fun a => f a == b := by
  induction l with
  | nil => rfl
  | cons x xs ih => simp [List.count_cons, List.countP_cons, ih]

theorem string_eq_of_data_eq {s t : String} (h : s.data = t.data) : s = t := by
  cases s
  cases t
  exact congrArg String.mk h

/-- Every century entry's period has at least 8 characters (the literal
`" century"` tail), so it can never equal a 4-character year period. -/
theorem mkCenturyEntry_period_length (p : String × String) :
    (mkCenturyEntry p).period.length = p.1.length + p.2.length + 8 := by
  have h8 : (" century" : String).length = 8 := by decide
  simp [mkCenturyEntry, String.length_append, h8]

/-- `extract_historical_dates` in terms of `timelineFrom`, for every
input (for empty text both sides are `[]`). -/
theorem extract_historical_dates_eq (text : String) :
    extract_historical_dates text =
      timelineFrom (findYears text.data).dedup (findCenturies text.data) := by
  unfold extract_historical_dates
  by_cases h : text = ""
  · subst h
    rfl
  · rw [if_neg h]

/-! ## Claim C2 -/

/-- C2: for every input text, `extract_historical_dates` returns at most
5 entries, sorted lexicographically by the period string; every entry is
either a year entry for a matched year or a century entry for a matched
century occurrence; each year entry occurs at most once (years are
deduplicated through a set); every matched year lies in 1000-1999 or
2000-2029; and when no truncation happens (at most 5 combined entries)
there is exactly one entry per unique year and exactly one entry per
century match occurrence (centuries are NOT deduplicated). -/
theorem claim_C2_extractTimeline (text : String) :
    (extract_historical_dates text).length ≤ 5 ∧
    (extract_historical_dates text).Pairwise entryLe ∧
    (∀ e ∈ extract_historical_dates text,
        (e.type = "year" ∧ e.period ∈ findYears text.data) ∨
        (e.type = "century" ∧ ∃ p ∈ findCenturies text.data, e = mkCenturyEntry p)) ∧
    (∀ y : String, (extract_historical_dates text).count ⟨y, "year"⟩ ≤ 1) ∧
    (∀ y ∈ findYears text.data,
        (1000 ≤ yearVal y ∧ yearVal y ≤ 1999) ∨ (2000 ≤ yearVal y ∧ yearVal y ≤ 2029)) ∧
    ((findYears text.data).dedup.length + (findCenturies text.data).length ≤ 5 →
      (∀ y : String,
        (⟨y, "year"⟩ : TimelineEntry) ∈ extract_historical_dates text ↔ y ∈ findYears text.data) ∧
      (∀ e : TimelineEntry, e.type = "century" →
        (extract_historical_dates text).count e =
          (findCenturies text.data).countP fun p => mkCenturyEntry p == e)) := by
  rw [extract_historical_dates_eq]
  simp only [timelineFrom]
  refine ⟨List.length_take_le 5 _, ?_, ?_, ?_, ?_, ?_⟩
  · exact (sortEntries_pairwise _).sublist (List.take_sublist 5 _)
  · intro e he
    have he1 := List.mem_of_mem_take he
    have he2 := (sortEntries_perm _).mem_iff.mp he1
    rcases List.mem_append.mp he2 with hy | hc
    · obtain ⟨y, hyD, rfl⟩ := List.mem_map.mp hy
      exact Or.inl ⟨rfl, List.mem_dedup.mp hyD⟩
    · obtain ⟨p, hpC, rfl⟩ := List.mem_map.mp hc
      exact Or.inr ⟨rfl, p, hpC, rfl⟩
  · intro y
    have h1 : (((sortEntries ((findYears text.data).dedup.map mkYearEntry ++
        (findCenturies text.data).map mkCenturyEntry)).take 5).count (⟨y, "year"⟩ : TimelineEntry)) ≤
        ((findYears text.data).dedup.map mkYearEntry ++
          (findCenturies text.data).map mkCenturyEntry).count (⟨y, "year"⟩ : TimelineEntry) := by
      calc _ ≤ (sortEntries _).count (⟨y, "year"⟩ : TimelineEntry) :=
            (List.take_sublist 5 _).count_le _
        _ = _ := (sortEntries_perm _).count_eq _
    refine le_trans h1 ?_
    rw [List.count_append]
    have hy1 : ((findYears text.data).dedup.map mkYearEntry).count (⟨y, "year"⟩ : TimelineEntry) ≤ 1 := by
      rw [count_map_eq_countP]
      have hcg : (findYears text.data).dedup.countP (fun a => mkYearEntry a == (⟨y, "year"⟩ : TimelineEntry)) =
          (findYears text.data).dedup.countP (fun a => a == y) := by
        refine List.countP_congr ?_
        intro x _
        simp [mkYearEntry, TimelineEntry.mk.injEq]
      rw [hcg]
      have : (findYears text.data).dedup.countP (fun a => a == y) =
          (findYears text.data).dedup.count y := rfl
      rw [this]
      exact List.nodup_iff_count_le_one.mp (List.nodup_dedup _) y
    have hy2 : ((findCenturies text.data).map mkCenturyEntry).count (⟨y, "year"⟩ : TimelineEntry) = 0 := by
      rw [count_map_eq_countP]
      refine List.countP_eq_zero.mpr ?_
      intro p _
      simp [mkCenturyEntry, TimelineEntry.mk.injEq]
    omega
  · intro y hy
    exact mem_findYears_range hy
  · intro hlen
    have hlenL : ((findYears text.data).dedup.map mkYearEntry ++
        (findCenturies text.data).map mkCenturyEntry).length ≤ 5 := by
      simp only [List.length_append, List.length_map]
      omega
    have hlenS : (sortEntries ((findYears text.data).dedup.map mkYearEntry ++
        (findCenturies text.data).map mkCenturyEntry)).length ≤ 5 := by
      rw [(sortEntries_perm _).length_eq]
      exact hlenL
    rw [List.take_of_length_le hlenS]
    constructor
    · intro y
      rw [(sortEntries_perm _).mem_iff]
      constructor
      · intro hmem
        rcases List.mem_append.mp hmem with hmy | hmc
        · obtain ⟨x, hxD, hx⟩ := List.mem_map.mp hmy
          have hxy : x = y := by
            simpa [mkYearEntry, TimelineEntry.mk.injEq] using hx
          subst hxy
          exact List.mem_dedup.mp hxD
        · obtain ⟨p, hpC, hp⟩ := List.mem_map.mp hmc
          exact absurd hp (by simp [mkCenturyEntry, TimelineEntry.mk.injEq])
      · intro hmem
        exact List.mem_append.mpr (Or.inl (List.mem_map.mpr ⟨y, List.mem_dedup.mpr hmem, rfl⟩))
    · intro e he
      rw [(sortEntries_perm _).count_eq, List.count_append]
      have hz : ((findYears text.data).dedup.map mkYearEntry).count e = 0 := by
        rw [count_map_eq_countP]
        refine List.countP_eq_zero.mpr ?_
        intro x _
        simp only [beq_iff_eq]
        intro hx
        rw [← hx] at he
        exact absurd he (by simp [mkYearEntry])
      rw [hz, count_map_eq_countP]
      omega

/-! ## Claim C10 -/

/-- C10: the text-derivation operations are deterministic.  The one
source of nondeterminism in the source is the iteration order of
`set(years)` in `extract_historical_dates`; this theorem shows that for
EVERY iteration order `ys` of the deduplicated year set the final output
is identical, because distinct years have distinct period strings, a
year period (4 characters) never equals a century period (at least 8
characters), equal-keyed century entries are identical records, and the
final lexicographic sort totally orders the result.
(`extract_heritage_facts` and `extract_cultural_info` are plain
functions of the text alone, so their determinism is inherent in the
embedding.) -/
theorem claim_C10_determinism (text : String) (ys : List String)
    (hperm : ys.Perm (findYears text.data).dedup) :
    timelineFrom ys (findCenturies text.data) = extract_historical_dates text := by
  rw [extract_historical_dates_eq]
  simp only [timelineFrom]
  have hmemY : ∀ y ∈ ys, y ∈ findYears text.data := fun y hy =>
    List.mem_dedup.mp (hperm.subset hy)
  have hpermL : (ys.map mkYearEntry ++ (findCenturies text.data).map mkCenturyEntry).Perm
      ((findYears text.data).dedup.map mkYearEntry ++
        (findCenturies text.data).map mkCenturyEntry) :=
    (hperm.map mkYearEntry).append_right _
  have hshape : ∀ x ∈ ys.map mkYearEntry ++ (findCenturies text.data).map mkCenturyEntry,
      (∃ y ∈ findYears text.data, x = mkYearEntry y) ∨ ∃ p, x = mkCenturyEntry p := by
    intro x hx
    rcases List.mem_append.mp hx with hxy | hxc
    · obtain ⟨y, hy, rfl⟩ := List.mem_map.mp hxy
      exact Or.inl ⟨y, hmemY y hy, rfl⟩
    · obtain ⟨p, _, rfl⟩ := List.mem_map.mp hxc
      exact Or.inr ⟨p, rfl⟩
  have anti : ∀ a ∈ sortEntries (ys.map mkYearEntry ++ (findCenturies text.data).map mkCenturyEntry),
      ∀ b ∈ sortEntries (ys.map mkYearEntry ++ (findCenturies text.data).map mkCenturyEntry),
      entryLe a b → entryLe b a → a = b := by
    intro a ha b hb hab hba
    have ha' := hshape a ((sortEntries_perm _).mem_iff.mp ha)
    have hb' := hshape b ((sortEntries_perm _).mem_iff.mp hb)
    have hper : a.period = b.period :=
      string_eq_of_data_eq (strLt_connex hba hab)
    rcases ha' with ⟨ya, hya, rfl⟩ | ⟨pa, rfl⟩
    · rcases hb' with ⟨yb, hyb, rfl⟩ | ⟨pb, rfl⟩
      · simp only [mkYearEntry] at hper ⊢
        rw [hper]
      · exfalso
        have h4 : (mkYearEntry ya).period.length = 4 := mem_findYears_length hya
        have h8 := mkCenturyEntry_period_length pb
        rw [hper, h8] at h4
        omega
    · rcases hb' with ⟨yb, hyb, rfl⟩ | ⟨pb, rfl⟩
      · exfalso
        have h4 : (mkYearEntry yb).period.length = 4 := mem_findYears_length hyb
        have h8 := mkCenturyEntry_period_length pa
        rw [← hper, h8] at h4
        omega
      · exact congrArg (fun s => TimelineEntry.mk s "century") hper
  have heq := eq_of_perm_of_pairwise anti
    ((sortEntries_perm _).trans (hpermL.trans (sortEntries_perm _).symm))
    (sortEntries_pairwise _) (sortEntries_pairwise _)
  rw [heq]

/-! ## Properties of the sentence extractors for claim C4 -/

theorem filterMap_if_sublist_map {α β : Type} (l : List α) (p : α → Prop) [DecidablePred p]
    (g : α → β) :
    (l.filterMap fun u => if p u then some (g u) else none).Sublist (l.map g) := by
  induction l with
  | nil => simp
  | cons x xs ih =>
    by_cases hx : p x
    · simpa [List.filterMap_cons, hx] using ih.cons₂ (g x)
    · simpa [List.filterMap_cons, hx] using ih.cons (g x)

theorem extract_matching_props (kws : List String) (maxN : Nat) (text : String) :
    (extract_matching kws maxN text).length ≤ maxN ∧
    (∀ s ∈ extract_matching kws maxN text, ∃ u ∈ pySplit text ". ",
        s = pyStrip u ++ "." ∧ 20 < (pyStrip u).length ∧ keywordHit kws (pyStrip u) = true) ∧
    (extract_matching kws maxN text).Sublist
      ((pySplit text ". ").map fun u => pyStrip u ++ ".") := by
  by_cases h0 : text = ""
  · subst h0
    simp only [extract_matching, if_pos rfl]
    exact ⟨Nat.zero_le _, by simp, List.nil_sublist _⟩
  · simp only [extract_matching, if_neg h0]
    refine ⟨List.length_take_le _ _, ?_, ?_⟩
    · intro s hs
      have hs1 := List.mem_of_mem_take hs
      obtain ⟨u, hu, hfu⟩ := List.mem_filterMap.mp hs1
      by_cases hc : 20 < (pyStrip u).length ∧ keywordHit kws (pyStrip u) = true
      · rw [if_pos hc] at hfu
        exact ⟨u, hu, (Option.some.injEq _ _ ▸ hfu).symm, hc.1, hc.2⟩
      · rw [if_neg hc] at hfu
        exact absurd hfu (by simp)
    · exact ((List.take_sublist _ _).trans
        (filterMap_if_sublist_map (pySplit text ". ")
          (fun u => 20 < (pyStrip u).length ∧ keywordHit kws (pyStrip u) = true)
          (fun u => pyStrip u ++ ".")))

/-! ## Slug round-trip and language-fallback lemmas -/

theorem replaceAux_single (a b : Char) :
    ∀ (fuel : Nat) (l : List Char), l.length ≤ fuel →
      replaceAux [a] [b] fuel l = l.map fun c => if c = a then b else c := by
  intro fuel
  induction fuel with
  | zero =>
    intro l hl
    cases l with
    | nil => rfl
    | cons c rest => simp at hl
  | succ n ih =>
    intro l hl
    cases l with
    | nil => rfl
    | cons c rest =>
      simp only [replaceAux]
      by_cases hc : c = a
      · subst hc
        have hpre : [c].isPrefixOf (c :: rest) = true := by
          simp [List.isPrefixOf]
        rw [if_pos hpre]
        have hdrop : List.drop [c].length (c :: rest) = rest := rfl
        have hlen : rest.length ≤ n := by
          simp only [List.length_cons] at hl
          omega
        rw [hdrop, ih rest hlen]
        simp
      · have hpre : [a].isPrefixOf (c :: rest) = false := by
          simp [List.isPrefixOf]
          intro h
          exact absurd h.symm hc
        rw [if_neg (by simp [hpre])]
        have hlen : rest.length ≤ n := by
          simp only [List.length_cons] at hl
          omega
        simp only [List.map_cons, if_neg hc]
        rw [ih rest hlen]

theorem toSlug_eq_map (t : String) :
    toSlug t = ⟨t.data.map fun c => if c = ' ' then '_' else c⟩ := by
  unfold toSlug pyReplace
  rw [if_neg (by decide)]
  have hp : (" " : String).data = [' '] := rfl
  have hq : ("_" : String).data = ['_'] := rfl
  rw [hp, hq]
  exact congrArg String.mk (replaceAux_single ' ' '_' t.data.length t.data (le_refl _))

theorem fromSlug_eq_map (t : String) :
    fromSlug t = ⟨t.data.map fun c => if c = '_' then ' ' else c⟩ := by
  unfold fromSlug pyReplace
  rw [if_neg (by decide)]
  have hp : ("_" : String).data = ['_'] := rfl
  have hq : (" " : String).data = [' '] := rfl
  rw [hp, hq]
  exact congrArg String.mk (replaceAux_single '_' ' ' t.data.length t.data (le_refl _))

theorem slug_roundtrip (t : String) (h : '_' ∉ t.data) : fromSlug (toSlug t) = t := by
  rw [toSlug_eq_map, fromSlug_eq_map]
  apply string_eq_of_data_eq
  show ((t.data.map fun c => if c = ' ' then '_' else c).map fun c => if c = '_' then ' ' else c) = t.data
  rw [List.map_map]
  have hpt : ∀ c ∈ t.data,
      ((fun c => if c = '_' then ' ' else c) ∘ fun c => if c = ' ' then '_' else c) c = id c := by
    intro c hc
    by_cases hsp : c = ' '
    · subst hsp
      simp
    · have hus : c ≠ '_' := fun e => h (e ▸ hc)
      simp [hsp, hus]
  rw [List.map_congr_left hpt, List.map_id]

theorem resolveLang_mem {lang : String} (h : lang ∈ supported_langs) :
    resolveLang lang = lang := by
  simp only [supported_langs, List.mem_cons, List.not_mem_nil, or_false] at h
  rcases h with rfl | rfl | rfl | rfl | rfl <;> rfl

theorem resolveLang_not_mem {lang : String} (h : lang ∉ supported_langs) :
    resolveLang lang = "en" := by
  simp only [supported_langs, List.mem_cons, List.not_mem_nil, or_false, not_or] at h
  obtain ⟨h1, h2, h3, h4, h5⟩ := h
  simp only [resolveLang, LANGUAGE_CODES, dictGet]
  rw [if_neg fun e => h1 e.symm, if_neg fun e => h2 e.symm, if_neg fun e => h3 e.symm,
    if_neg fun e => h4 e.symm, if_neg fun e => h5 e.symm]

/-! ## Commons image pipeline lemmas for claims C3 and C9 -/

theorem get_commons_images_length_le (term : String) (limit : Nat)
    (sr : Except Unit CommonsSearchResp) (d : String → Except Unit ImgResp) :
    (get_commons_images term limit sr d).length ≤ limit := by
  unfold get_commons_images
  split
  · simp
  · split
    · simp
    · split
      · simp
      · split
        · simp
        · exact List.length_take_le _ _

theorem mem_buildImages (d : String → Except Unit ImgResp) :
    ∀ (hits : List CommonsHit) (imgs : List CommonsImage),
      buildImages d hits = some imgs →
      ∀ img ∈ imgs, ∃ item info, img = mkImage item info := by
  intro hits
  induction hits with
  | nil =>
    intro imgs h img himg
    simp only [buildImages, Option.some.injEq] at h
    rw [← h] at himg
    simp at himg
  | cons item rest ih =>
    intro imgs h img himg
    simp only [buildImages] at h
    repeat' split at h
    all_goals try exact ih imgs h img himg
    all_goals try exact Option.noConfusion h
    all_goals
      cases hb : buildImages d rest with
      | none => rw [hb] at h; exact Option.noConfusion h
      | some imgs' =>
        rw [hb] at h
        simp only [Option.map_some', Option.some.injEq] at h
        rw [← h] at himg
        rcases List.mem_cons.mp himg with rfl | himg'
        · exact ⟨item, _, rfl⟩
        · exact ih imgs' hb img himg'

theorem mem_get_commons_images_resolved (term : String) (limit : Nat)
    (sr : Except Unit CommonsSearchResp) (d : String → Except Unit ImgResp)
    (img : CommonsImage) (h : img ∈ get_commons_images term limit sr d) :
    ∃ item info, img = mkImage item info := by
  rcases sr with e | ⟨_ | ⟨_ | hits⟩⟩
  · simp [get_commons_images] at h
  · simp [get_commons_images] at h
  · simp [get_commons_images] at h
  · simp only [get_commons_images] at h
    cases hb : buildImages d hits with
    | none => rw [hb] at h; simp at h
    | some images =>
      rw [hb] at h
      exact mem_buildImages d hits images hb img (List.mem_of_mem_take h)

/-! ## Claim theorems and witnesses -/

/-- C1: for every locationId and language, `get_heritage_content` with
all three upstream fetches failing returns a well-formed composite
record with every field present: empty Wikipedia extract, empty
coordinates and categories, empty image list, empty travel extract and
empty-valued summaries.  The function is total, so the operation never
raises. -/
theorem claim_C1_all_sources_failed (location_id lang : String)
    (detail : String → Except Unit ImgResp) :
    get_heritage_content location_id lang (.error ()) (.error ()) detail (.error ()) =
      { location_id := location_id
        title := fromSlug location_id
        language := lang
        wikipedia := { extract := "", coordinates := [], categories := [], page_image := "" }
        travel_info := { extract := "", page_image := "" }
        images := []
        summary := { heritage_facts := [], cultural_significance := [],
                     historical_timeline := [] } } := rfl

/-- C2 witness at a concrete text (one unique year, two occurrences of
the same century phrase, no truncation). -/
theorem claim_C2_extractTimeline_witness :
    ((⟨"1565", "year"⟩ : TimelineEntry) ∈
        extract_historical_dates
          "The fort was built in 1565, redone in the 19th century and again in the 19th century." ↔
      "1565" ∈ findYears
          ("The fort was built in 1565, redone in the 19th century and again in the 19th century." : String).data) ∧
    (extract_historical_dates
        "The fort was built in 1565, redone in the 19th century and again in the 19th century.").count
        ⟨"19th century", "century"⟩ =
      (findCenturies
        ("The fort was built in 1565, redone in the 19th century and again in the 19th century." : String).data).countP
        fun p => mkCenturyEntry p == (⟨"19th century", "century"⟩ : TimelineEntry) :=
  ⟨((claim_C2_extractTimeline _).2.2.2.2.2 (by decide)).1 "1565",
   ((claim_C2_extractTimeline _).2.2.2.2.2 (by decide)).2 ⟨"19th century", "century"⟩ rfl⟩

/-- C3 counterexample: with five raw hits and limit 3, when the
second-stage lookups for hits B and D raise, the code does NOT drop just
those two assets and return the three resolved ones — the exception
escapes the loop to the outer handler and the whole batch degrades to
`[]`, although every other hit resolves (second conjunct). -/
theorem claim_C3_batch_abort_counterexample :
    get_commons_images "Red Fort" 3 (.ok c3Search5) c3DetailRaises = [] ∧
    get_commons_images "Red Fort" 3 (.ok c3Search5) c3DetailAllOk =
      [mkImage ⟨"File:A.jpg"⟩ c3GoodInfo, mkImage ⟨"File:B.jpg"⟩ c3GoodInfo,
        mkImage ⟨"File:C.jpg"⟩ c3GoodInfo] := by
  constructor
  · decide
  · decide

/-- C3 amended: every asset `get_commons_images` returns is fully
resolved (it is built from a hit and a complete `imageinfo[0]` record);
and a per-hit detail response that is well-formed but lacks image
metadata silently drops exactly that asset: with limit 3 and five raw
hits of which two (B, D) lack metadata, the result is exactly the three
fully-resolved assets A, C, E.  (A detail lookup that raises instead
aborts the whole batch to `[]` — see the counterexample.) -/
theorem claim_C3_amended (term : String) (limit : Nat)
    (sr : Except Unit CommonsSearchResp) (d : String → Except Unit ImgResp)
    (img : CommonsImage) :
    (img ∈ get_commons_images term limit sr d → ∃ item info, img = mkImage item info) ∧
    get_commons_images "Red Fort" 3 (.ok c3Search5) c3DetailMissing =
      [mkImage ⟨"File:A.jpg"⟩ c3GoodInfo, mkImage ⟨"File:C.jpg"⟩ c3GoodInfo,
        mkImage ⟨"File:E.jpg"⟩ c3GoodInfo] := by
  constructor
  · exact mem_get_commons_images_resolved term limit sr d img
  · decide

/-- C3 witness: a concrete returned asset, resolved through the amended
theorem. -/
theorem claim_C3_amended_witness :
    mkImage ⟨"File:A.jpg"⟩ c3GoodInfo ∈
      get_commons_images "Red Fort" 3 (.ok c3Search5) c3DetailMissing ∧
    ∃ item info, mkImage ⟨"File:A.jpg"⟩ c3GoodInfo = mkImage item info :=
  ⟨by decide,
   (claim_C3_amended "Red Fort" 3 (.ok c3Search5) c3DetailMissing
      (mkImage ⟨"File:A.jpg"⟩ c3GoodInfo)).1 (by decide)⟩

/-- C4: every string `extract_heritage_facts` / `extract_cultural_info`
returns is a stripped sentence of the input (with the trailing period
re-appended), strictly longer than 20 characters and case-insensitively
containing a keyword of the respective fixed list; at most 5 / 3
results, in original sentence order (sublist of the sentence sequence);
empty input yields empty sequences. -/
theorem claim_C4_extractors (text : String) :
    (extract_heritage_facts text).length ≤ 5 ∧
    (extract_cultural_info text).length ≤ 3 ∧
    (∀ s ∈ extract_heritage_facts text, ∃ u ∈ pySplit text ". ",
        s = pyStrip u ++ "." ∧ 20 < (pyStrip u).length ∧
        keywordHit heritage_keywords (pyStrip u) = true) ∧
    (∀ s ∈ extract_cultural_info text, ∃ u ∈ pySplit text ". ",
        s = pyStrip u ++ "." ∧ 20 < (pyStrip u).length ∧
        keywordHit cultural_keywords (pyStrip u) = true) ∧
    (extract_heritage_facts text).Sublist ((pySplit text ". ").map fun u => pyStrip u ++ ".") ∧
    (extract_cultural_info text).Sublist ((pySplit text ". ").map fun u => pyStrip u ++ ".") ∧
    extract_heritage_facts "" = [] ∧ extract_cultural_info "" = [] := by
  obtain ⟨h1, h2, h3⟩ := extract_matching_props heritage_keywords 5 text
  obtain ⟨h4, h5, h6⟩ := extract_matching_props cultural_keywords 3 text
  exact ⟨h1, h4, h2, h5, h3, h6, rfl, rfl⟩

/-- C4 witness: a concrete returned fact, traced back to its sentence. -/
theorem claim_C4_extractors_witness :
    ∃ u ∈ pySplit "An ancient temple stands on the hill. It hosts a music and dance festival." ". ",
      "An ancient temple stands on the hill." = pyStrip u ++ "." ∧
      20 < (pyStrip u).length ∧ keywordHit heritage_keywords (pyStrip u) = true :=
  (claim_C4_extractors
      "An ancient temple stands on the hill. It hosts a music and dance festival.").2.2.1
    "An ancient temple stands on the hill." (by decide)

/-- C5: on the concrete input, `extract_heritage_facts` keeps both
sentences (the second one, which already ends in a period, comes back
with a doubled period since the code re-appends one), and
`extract_historical_dates` is exactly the year entry `1565` followed by
the century entry `19th century`, in that order after the lexicographic
sort. -/
theorem claim_C5_concrete :
    extract_heritage_facts
        "The fort was built in 1565 and renovated in the 19th century. It is a famous temple." =
      ["The fort was built in 1565 and renovated in the 19th century.",
        "It is a famous temple.."] ∧
    extract_historical_dates
        "The fort was built in 1565 and renovated in the 19th century. It is a famous temple." =
      [⟨"1565", "year"⟩, ⟨"19th century", "century"⟩] := by
  constructor
  · decide
  · decide

/-- C6 counterexample: a raised transport/decoding failure does NOT
yield an empty sequence — `get_nearby_heritage` re-raises it as a
service-unavailable fault (`HTTPException`, modelled `.error ()`). -/
theorem claim_C6_fault_counterexample :
    get_nearby_heritage 28 77 10 "en" (.error ()) = .error () := rfl

/-- C6 amended: the geosearch request converts the radius from km to
meters (`gsradius = radius * 1000`), asks for at most 20 hits in
namespace 0; a decoded response without geosearch data yields an empty
place sequence, and the places otherwise mirror the upstream hit order;
but a raised transport/parse failure surfaces as a fault instead of an
empty sequence. -/
theorem claim_C6_amended (lat lon radius : Int) (lang : String) (hits : List GeoHit) :
    (nearby_request_params radius).gsradius = radius * 1000 ∧
    (nearby_request_params radius).gslimit = 20 ∧
    (nearby_request_params radius).gsnamespace = 0 ∧
    get_nearby_heritage lat lon radius lang (.ok ⟨some ⟨some hits⟩⟩) =
      .ok { center := { lat := lat, lon := lon }
            radius_km := radius
            total := (hits.map convertPlace).length
            places := hits.map convertPlace } ∧
    get_nearby_heritage lat lon radius lang (.ok ⟨none⟩) =
      .ok { center := { lat := lat, lon := lon }, radius_km := radius, total := 0, places := [] } ∧
    get_nearby_heritage lat lon radius lang (.error ()) = .error () :=
  ⟨rfl, rfl, rfl, rfl, rfl, rfl⟩

/-- C7: the slug mapping round-trips exactly on titles without
underscores (space to underscore, then underscore back to space), and
fails to round-trip on a title that already contains an underscore. -/
theorem claim_C7_slug_roundtrip :
    (∀ t : String, '_' ∉ t.data → fromSlug (toSlug t) = t) ∧
    fromSlug (toSlug "Humayun_Tomb") ≠ "Humayun_Tomb" := by
  refine ⟨fun t h => slug_roundtrip t h, ?_⟩
  decide

/-- C7 witness: the round-trip at a concrete underscore-free title. -/
theorem claim_C7_slug_roundtrip_witness :
    '_' ∉ ("Taj Mahal" : String).data ∧ fromSlug (toSlug "Taj Mahal") = "Taj Mahal" :=
  ⟨by decide, claim_C7_slug_roundtrip.1 "Taj Mahal" (by decide)⟩

/-- C8: in every operation taking a language parameter (article search,
article content fetch, travel content fetch, geosearch), a language code
outside the supported set is silently replaced by `"en"` when selecting
the upstream host, while a supported code is used unchanged. -/
theorem claim_C8_language_fallback (lang : String) :
    (lang ∉ supported_langs →
      resolveLang lang = "en" ∧
      search_wikipedia_api_url lang = search_wikipedia_api_url "en" ∧
      article_content_api_url lang = article_content_api_url "en" ∧
      wikivoyage_api_url lang = wikivoyage_api_url "en" ∧
      nearby_api_url lang = nearby_api_url "en") ∧
    (lang ∈ supported_langs →
      resolveLang lang = lang ∧
      search_wikipedia_api_url lang = "https://" ++ lang ++ ".wikipedia.org/w/api.php" ∧
      article_content_api_url lang = "https://" ++ lang ++ ".wikipedia.org/w/api.php" ∧
      wikivoyage_api_url lang = "https://" ++ lang ++ ".wikivoyage.org/w/api.php" ∧
      nearby_api_url lang = "https://" ++ lang ++ ".wikipedia.org/w/api.php") := by
  constructor
  · intro h
    have hr := resolveLang_not_mem h
    refine ⟨hr, ?_, ?_, ?_, ?_⟩ <;>
      simp only [search_wikipedia_api_url, article_content_api_url, wikivoyage_api_url,
        nearby_api_url] <;> rw [hr] <;> decide
  · intro h
    have hr := resolveLang_mem h
    refine ⟨hr, ?_, ?_, ?_, ?_⟩ <;>
      simp only [search_wikipedia_api_url, article_content_api_url, wikivoyage_api_url,
        nearby_api_url] <;> rw [hr]

/-- C8 witness: the unsupported code `fr` falls back to the English host,
the supported code `hi` is used unchanged. -/
theorem claim_C8_language_fallback_witness :
    ("fr" ∉ supported_langs ∧ search_wikipedia_api_url "fr" = search_wikipedia_api_url "en") ∧
    ("hi" ∈ supported_langs ∧ wikivoyage_api_url "hi" = "https://hi.wikivoyage.org/w/api.php") :=
  ⟨⟨by decide, ((claim_C8_language_fallback "fr").1 (by decide)).2.1⟩,
   ⟨by decide, ((claim_C8_language_fallback "hi").2 (by decide)).2.2.2.1⟩⟩

/-- C9: the composite record holds at most 10 media assets, because the
aggregator invokes the media search with no caller-supplied limit and
the media search's default limit is 10. -/
theorem claim_C9_images_default_limit (location_id lang : String)
    (wikiRes : Except Unit ArticleResp) (commonsSearchRes : Except Unit CommonsSearchResp)
    (detail : String → Except Unit ImgResp) (voyRes : Except Unit VoyResp) :
    (get_heritage_content location_id lang wikiRes commonsSearchRes detail voyRes).images.length ≤ 10 :=
  get_commons_images_length_le (fromSlug location_id) 10 commonsSearchRes detail

/-- C10 witness: a reversed iteration order over a two-element year set
produces the same timeline. -/
theorem claim_C10_determinism_witness :
    (["1655", "1565"] : List String).Perm
      ((findYears ("Built in 1565, ruined in 1655." : String).data).dedup) ∧
    timelineFrom ["1655", "1565"] (findCenturies ("Built in 1565, ruined in 1655." : String).data) =
      extract_historical_dates "Built in 1565, ruined in 1655." :=
  ⟨by decide, claim_C10_determinism "Built in 1565, ruined in 1655." ["1655", "1565"] (by decide)⟩
